import Mathlib

/-!
Verification of the option-pricing engine in `option_pricing_main.py`
(class `OptionPricing`): the geometric-random-walk path generator, the
Monte Carlo pricer, the Black-Scholes analytic pricer and the volatility
estimator.

Modelling conventions:
  - Machine floats become exact rationals `ℚ`; the transcendental
    primitives the source calls (`np.exp`, `np.log`, `np.sqrt`,
    `scipy.stats.norm.cdf`) are abstracted as fields of a `Prims` record,
    so every development definition stays computable and theorems can
    assume exactly the analytic facts they need (e.g. positivity of exp,
    symmetry of the standard normal CDF).
  - The global NumPy random source becomes an explicit draw stream:
    `Z : Nat → ℚ` gives the i-th `np.random.randn()` draw of one path,
    and `Z : Nat → Nat → ℚ` gives per-trial streams for the simulation.
  - A Python value that is either a float or a string (the fallback
    pattern of the source) becomes `PyVal`; a Python exception escaping
    an entry point becomes `Except PyErr`.
  - Division by zero in `ℚ` yields `0` where NumPy floats would yield
    `inf`/`nan`; the theorems below only use division at points where the
    claims concern whether an error is raised, never the quotient value
    at a zero denominator.
-/

namespace OptionPricing

/-- Abstract numeric primitives used by the source: `np.exp`, `np.log`,
`np.sqrt` and the standard normal CDF `scipy.stats.norm.cdf`. -/
structure Prims where
  exp : ℚ → ℚ
  log : ℚ → ℚ
  sqrt : ℚ → ℚ
  cdf : ℚ → ℚ

/-- A Python value that is either a number or a string; the source returns
a string literal in place of a number when the option kind is not
recognized. String payloads appear here without their inner quotation
marks. -/
inductive PyVal where
  | num (q : ℚ)
  | str (s : String)
deriving DecidableEq

/-- Python exceptions that the entry points can raise on the fallback
string: `TypeError` from `str * float`, `AttributeError` from
`str.item()`. -/
inductive PyErr where
  | typeError
  | attributeError
deriving DecidableEq

/-- Helper for `geometric_path`: the loop
`for _ in range(t_steps): s_t = s0 * np.exp((rf - 0.5*sigma**2)*t + sigma*np.sqrt(t)*randn()); price_path.append(s_t); s0 = s_t`,
with `i` the index of the next draw taken from the stream `Z` and the
last argument the number of remaining iterations. -/
def gpAux (P : Prims) (rf sigma t : ℚ) (Z : Nat → ℚ) : ℚ → Nat → Nat → List ℚ
  | _, _, 0 => []
  | s0, i, n + 1 =>
      let s_t := s0 * P.exp ((rf - 0.5 * sigma ^ 2) * t + sigma * P.sqrt t * Z i)
      s_t :: gpAux P rf sigma t Z s_t (i + 1) n

/-- `OptionPricing.geometric_path(rf, s0, sigma, t, t_steps)` from the
source: starts the path at `s0` and appends `t_steps` multiplicative
steps, each consuming one standard-normal draw. -/
def geometric_path (P : Prims) (rf s0 sigma t : ℚ) (t_steps : Nat) (Z : Nat → ℚ) : List ℚ :=
  s0 :: gpAux P rf sigma t Z s0 0 t_steps

/-- `np.mean` on a list: sum divided by length. -/
def mean (l : List ℚ) : ℚ := l.sum / l.length

/-- `OptionPricing._mc_simulation`: `interval = capt / steps`; for each of
`sims` trials generate one path and keep its last element
(`prices[-1]`). Trial `j` uses draw stream `Z j`. -/
def mc_simulation (P : Prims) (rf spot sigma capt : ℚ) (steps sims : Nat)
    (Z : Nat → Nat → ℚ) : List ℚ :=
  (List.range sims).map fun j =>
    (geometric_path P rf spot sigma (capt / steps) steps (Z j)).getLastD 0

/-- `OptionPricing._mc_option_payoffs`: mean of `np.maximum(final - strike, 0)`
for a call, mean of `np.maximum(strike - final, 0)` for a put, and the
fallback string for any other kind. -/
def mc_option_payoffs (P : Prims) (opt_type : String) (spot strike rf sigma capt : ℚ)
    (steps sims : Nat) (Z : Nat → Nat → ℚ) : PyVal :=
  let final_prices := mc_simulation P rf spot sigma capt steps sims Z
  if opt_type = "Call" then
    .num (mean (final_prices.map fun s => max (s - strike) 0))
  else if opt_type = "Put" then
    .num (mean (final_prices.map fun s => max (strike - s) 0))
  else
    .str "Unrecognized option. Input Call or Put"

/-- `OptionPricing.mc_call_prc`: multiplies the average payoff by
`np.exp((rf * -1) * capt)`. When `_mc_option_payoffs` returned the
fallback string, the multiplication `str * np.float64` raises
`TypeError` before anything is printed. -/
def mc_call_prc (P : Prims) (opt_type : String) (spot strike rf sigma capt : ℚ)
    (steps sims : Nat) (Z : Nat → Nat → ℚ) : Except PyErr ℚ :=
  match mc_option_payoffs P opt_type spot strike rf sigma capt steps sims Z with
  | .num avg_payoff => .ok (avg_payoff * P.exp ((rf * -1) * capt))
  | .str _ => .error .typeError

/-- The `d1` of `OptionPricing.black_sholes_price`:
`(np.log(spot/strike) + (rf + sigma**2/2)*capt) / (sigma*np.sqrt(capt))`. -/
def bs_d1 (P : Prims) (spot strike rf sigma capt : ℚ) : ℚ :=
  (P.log (spot / strike) + (rf + sigma ^ 2 / 2) * capt) / (sigma * P.sqrt capt)

/-- The `d2` of `OptionPricing.black_sholes_price`: `d1 - sigma*np.sqrt(capt)`. -/
def bs_d2 (P : Prims) (spot strike rf sigma capt : ℚ) : ℚ :=
  bs_d1 P spot strike rf sigma capt - sigma * P.sqrt capt

/-- The value bound to `price` in `OptionPricing.black_sholes_price`: the
Black-Scholes formula for `Call` and `Put`, the fallback string
otherwise. -/
def black_sholes_val (P : Prims) (opt_type : String) (spot strike rf sigma capt : ℚ) : PyVal :=
  let d1 := bs_d1 P spot strike rf sigma capt
  let d2 := bs_d2 P spot strike rf sigma capt
  if opt_type = "Call" then
    .num (spot * P.cdf d1 - strike * P.exp ((-1) * rf * capt) * P.cdf d2)
  else if opt_type = "Put" then
    .num (strike * P.exp ((-1) * rf * capt) * P.cdf (-d2) - spot * P.cdf (-d1))
  else
    .str "Option type not recognized. Please use Call or Put."

/-- `OptionPricing.black_sholes_price` as observed by the caller: the
method ends with `price.item()`, which succeeds on a NumPy float and
raises `AttributeError` when `price` is the fallback string. -/
def black_sholes_price (P : Prims) (opt_type : String) (spot strike rf sigma capt : ℚ) :
    Except PyErr ℚ :=
  match black_sholes_val P opt_type spot strike rf sigma capt with
  | .num q => .ok q
  | .str _ => .error .attributeError

/-- `df.pct_change()` on a price series, after dropping the leading `NaN`
that pandas puts at position 0 and that `std(skipna=True)` ignores:
day-over-day simple returns `(p[i] - p[i-1]) / p[i-1]`. -/
def pct_change (p : List ℚ) : List ℚ :=
  List.zipWith (fun prev cur => (cur - prev) / prev) p p.tail

/-- Pandas `Series.std()` (sample standard deviation, `ddof=1`): `none`
models the `NaN` pandas returns when fewer than two non-`NaN` values are
present. -/
def sample_std (P : Prims) (l : List ℚ) : Option ℚ :=
  if l.length ≤ 1 then none
  else some (P.sqrt ((l.map fun x => (x - mean l) ^ 2).sum / ((l.length : ℚ) - 1)))

/-- The `sigma` computed by `OptionPricing._stock_info`:
`df.pct_change().std() * np.sqrt(252)`; `none` propagates the `NaN`. -/
def stock_sigma (P : Prims) (p : List ℚ) : Option ℚ :=
  (sample_std P (pct_change p)).map fun s => s * P.sqrt 252

/-- Modelled from the spec (section 4.4): the `d1` formula as written in
the spec text. -/
def spec_d1 (P : Prims) (spot strike rf sigma capt : ℚ) : ℚ :=
  (P.log (spot / strike) + (rf + sigma ^ 2 / 2) * capt) / (sigma * P.sqrt capt)

/-- Modelled from the spec (section 4.4): `d2 = d1 - volatility * sqrt(T)`. -/
def spec_d2 (P : Prims) (spot strike rf sigma capt : ℚ) : ℚ :=
  spec_d1 P spot strike rf sigma capt - sigma * P.sqrt capt

/-- Modelled from the spec (section 4.4):
`Call: spot * Φ(d1) - strike * exp(-riskFreeRate*T) * Φ(d2)`. -/
def spec_call_price (P : Prims) (spot strike rf sigma capt : ℚ) : ℚ :=
  spot * P.cdf (spec_d1 P spot strike rf sigma capt) -
    strike * P.exp (-(rf * capt)) * P.cdf (spec_d2 P spot strike rf sigma capt)

/-- Modelled from the spec (section 4.4):
`Put: strike * exp(-riskFreeRate*T) * Φ(-d2) - spot * Φ(-d1)`. -/
def spec_put_price (P : Prims) (spot strike rf sigma capt : ℚ) : ℚ :=
  strike * P.exp (-(rf * capt)) * P.cdf (-(spec_d2 P spot strike rf sigma capt)) -
    spot * P.cdf (-(spec_d1 P spot strike rf sigma capt))

/-- Modelled from the spec (section 4.2): the path recurrence
`S_next = S * exp((riskFreeRate - 0.5*volatility^2)*stepIntervalYears + volatility*sqrt(stepIntervalYears)*Z)`,
one draw per step, output starting at the initial price. -/
def spec_path (P : Prims) (rf sigma dt : ℚ) (s : ℚ) (n : Nat) (Z : Nat → ℚ) : List ℚ :=
  match n with
  | 0 => [s]
  | n + 1 =>
      s :: spec_path P rf sigma dt
        (s * P.exp ((rf - 0.5 * sigma ^ 2) * dt + sigma * P.sqrt dt * Z 0))
        n (fun i => Z (i + 1))

/-- Modelled from the spec (section 4.3 step 3): per-trial payoff
`max(S_T - strikePrice, 0)` for a call, `max(strikePrice - S_T, 0)` for a
put. -/
def spec_payoff (kind : String) (strike sT : ℚ) : ℚ :=
  if kind = "Call" then max (sT - strike) 0 else max (strike - sT) 0

/-- Modelled from the spec (section 4.3): `stepIntervalYears = T/stepCount`;
average the per-trial payoffs of the terminal path values and discount by
`exp(-riskFreeRate * timeToMaturityYears)`. -/
def spec_mc_price (P : Prims) (kind : String) (spot strike rf sigma capt : ℚ)
    (steps sims : Nat) (Z : Nat → Nat → ℚ) : ℚ :=
  let dt := capt / steps
  let payoffs := (List.range sims).map fun j =>
    spec_payoff kind strike ((spec_path P rf sigma dt spot steps (Z j)).getLastD 0)
  (payoffs.sum / payoffs.length) * P.exp (-(rf * capt))

/-- Concrete primitives for witnesses: `exp` is the constant `2` (strictly
positive everywhere), `cdf x = x + 1/2` (satisfies the reflection identity
of the standard normal CDF), `log` and `sqrt` are the identity. -/
def cP : Prims where
  exp := fun _ => 2
  log := fun x => x
  sqrt := fun x => x
  cdf := fun x => x + 1 / 2

/-- The loop body appends exactly one price per iteration. -/
theorem gpAux_length (P : Prims) (rf sigma t : ℚ) (Z : Nat → ℚ) :
    ∀ (n : Nat) (s0 : ℚ) (i : Nat), (gpAux P rf sigma t Z s0 i n).length = n := by
  intro n
  induction n with
  | zero => intro s0 i; rfl
  | succ m ih =>
      intro s0 i
      simp only [gpAux, List.length_cons, ih]

/-- Each generated element is the previous one times the exponential
factor built from the draw of that step. -/
theorem gpAux_getD_succ (P : Prims) (rf sigma t : ℚ) (Z : Nat → ℚ) :
    ∀ (k n : Nat) (s0 : ℚ) (i0 : Nat), k < n →
      (s0 :: gpAux P rf sigma t Z s0 i0 n).getD (k + 1) 0 =
        (s0 :: gpAux P rf sigma t Z s0 i0 n).getD k 0 *
          P.exp ((rf - 0.5 * sigma ^ 2) * t + sigma * P.sqrt t * Z (i0 + k)) := by
  intro k
  induction k with
  | zero =>
      intro n s0 i0 hk
      match n, hk with
      | m + 1, _ =>
          simp only [gpAux, List.getD_cons_succ, List.getD_cons_zero, Nat.add_zero]
  | succ k ih =>
      intro n s0 i0 hk
      match n, hk with
      | m + 1, hk =>
          have hkm : k < m := by omega
          have h :=
            ih m (s0 * P.exp ((rf - 0.5 * sigma ^ 2) * t + sigma * P.sqrt t * Z i0)) (i0 + 1) hkm
          simp only [gpAux, List.getD_cons_succ] at h ⊢
          rw [h]
          have harg : i0 + 1 + k = i0 + (k + 1) := by omega
          rw [harg]

/-- Every price produced by the loop stays strictly positive when the
start is and the exponential primitive is positive. -/
theorem gpAux_pos (P : Prims) (rf sigma t : ℚ) (Z : Nat → ℚ)
    (hexp : ∀ x, 0 < P.exp x) :
    ∀ (n : Nat) (s0 : ℚ) (i : Nat), 0 < s0 → ∀ x ∈ gpAux P rf sigma t Z s0 i n, 0 < x := by
  intro n
  induction n with
  | zero => intro s0 i _ x hx; simp [gpAux] at hx
  | succ m ih =>
      intro s0 i hs x hx
      simp only [gpAux, List.mem_cons] at hx
      rcases hx with hx | hx
      · subst hx; exact mul_pos hs (hexp _)
      · exact ih _ _ (mul_pos hs (hexp _)) x hx

/-- C3: for every initial price, step count (including zero), model
parameters and draw stream, `geometric_path` returns a list of length
stepCount + 1 whose element 0 is the initial price, and whose element
`i` (for 1 ≤ i ≤ stepCount) is element `i - 1` times
`exp((rf - 0.5*sigma^2)*t + sigma*sqrt(t)*Z_i)`, `Z_i` being the i-th
draw. The length and element-0 facts hold unconditionally; only the
recurrence is restricted to 1 ≤ i ≤ stepCount. -/
theorem geometric_path_spec (P : Prims) (rf s0 sigma t : ℚ) (t_steps : Nat) (Z : Nat → ℚ) :
    (geometric_path P rf s0 sigma t t_steps Z).length = t_steps + 1 ∧
    (geometric_path P rf s0 sigma t t_steps Z).getD 0 0 = s0 ∧
    ∀ i, 1 ≤ i → i ≤ t_steps →
      (geometric_path P rf s0 sigma t t_steps Z).getD i 0 =
        (geometric_path P rf s0 sigma t t_steps Z).getD (i - 1) 0 *
          P.exp ((rf - 0.5 * sigma ^ 2) * t + sigma * P.sqrt t * Z (i - 1)) := by
  refine ⟨?_, rfl, ?_⟩
  · simp [geometric_path, gpAux_length]
  · intro i h1 h2
    have hk : i - 1 < t_steps := by omega
    have h := gpAux_getD_succ P rf sigma t Z (i - 1) t_steps s0 0 hk
    have hi : i - 1 + 1 = i := by omega
    rw [hi] at h
    simpa [geometric_path] using h

/-- Witness for C3 at a concrete input: two steps, draw stream constantly
zero; the length and element-0 parts are projected directly and the
recurrence is instantiated at index 1, discharging its bounds. -/
theorem geometric_path_spec_witness :
    (geometric_path cP 0 1 0 1 2 fun _ => 0).length = 2 + 1 ∧
    (geometric_path cP 0 1 0 1 2 fun _ => 0).getD 0 0 = 1 ∧
    (geometric_path cP 0 1 0 1 2 fun _ => 0).getD 1 0 =
      (geometric_path cP 0 1 0 1 2 fun _ => 0).getD (1 - 1) 0 *
        cP.exp ((0 - 0.5 * 0 ^ 2) * 1 + 0 * cP.sqrt 1 * 0) :=
  ⟨(geometric_path_spec cP 0 1 0 1 2 fun _ => 0).1,
   (geometric_path_spec cP 0 1 0 1 2 fun _ => 0).2.1,
   (geometric_path_spec cP 0 1 0 1 2 fun _ => 0).2.2 1 (by decide) (by decide)⟩

/-- C4: for every strictly positive initial price, every step count and
every draw stream, every element of the path returned by
`geometric_path` is strictly positive (assuming the exponential
primitive is positive everywhere, as the real `np.exp` is). -/
theorem geometric_path_pos (P : Prims) (rf s0 sigma t : ℚ) (t_steps : Nat) (Z : Nat → ℚ)
    (hexp : ∀ x, 0 < P.exp x) (hs : 0 < s0) :
    ∀ x ∈ geometric_path P rf s0 sigma t t_steps Z, 0 < x := by
  intro x hx
  simp only [geometric_path, List.mem_cons] at hx
  rcases hx with hx | hx
  · subst hx; exact hs
  · exact gpAux_pos P rf sigma t Z hexp t_steps s0 0 hs x hx

/-- Witness for C4 at a concrete input: the constant-2 exponential sends
the start 1 through the two-step path [1, 2, 4], and the element 4 is
positive. -/
theorem geometric_path_pos_witness :
    (0 : ℚ) < 1 ∧ (0 : ℚ) < 4 :=
  ⟨by norm_num,
    geometric_path_pos cP 0 1 0 1 2 (fun _ => 0) (fun _ => by norm_num [cP]) (by norm_num)
      4 (by norm_num [geometric_path, gpAux, cP])⟩

/-- C1: for every parameter set, the analytic pricer computes exactly the
spec formulas: `spot * Φ(d1) - strike * exp(-r*T) * Φ(d2)` for a call and
`strike * exp(-r*T) * Φ(-d2) - spot * Φ(-d1)` for a put, with `d1` and
`d2` as the spec defines them. -/
theorem black_sholes_price_matches_spec (P : Prims) (spot strike rf sigma capt : ℚ) :
    black_sholes_price P "Call" spot strike rf sigma capt =
      Except.ok (spec_call_price P spot strike rf sigma capt) ∧
    black_sholes_price P "Put" spot strike rf sigma capt =
      Except.ok (spec_put_price P spot strike rf sigma capt) := by
  have harg : (-1 : ℚ) * rf * capt = -(rf * capt) := by ring
  constructor <;>
    simp only [black_sholes_price, black_sholes_val, spec_call_price, spec_put_price,
      spec_d1, spec_d2, bs_d1, bs_d2, harg, if_pos, String.reduceEq, reduceIte]

/-- C6: for identical parameters, the analytic call price minus the
analytic put price is `spot - strike * exp(-r*T)` (put-call parity),
assuming the reflection identity `Φ(-x) = 1 - Φ(x)` of the standard
normal CDF. -/
theorem put_call_parity (P : Prims) (hcdf : ∀ x, P.cdf (-x) = 1 - P.cdf x)
    (spot strike rf sigma capt : ℚ) (hsig : 0 < sigma) (hT : 0 < capt) :
    ∃ c p,
      black_sholes_price P "Call" spot strike rf sigma capt = Except.ok c ∧
      black_sholes_price P "Put" spot strike rf sigma capt = Except.ok p ∧
      c - p = spot - strike * P.exp (-(rf * capt)) := by
  refine ⟨_, _, rfl, rfl, ?_⟩
  have harg : (-1 : ℚ) * rf * capt = -(rf * capt) := by ring
  simp only [hcdf, harg]
  ring

/-- Witness for C6 at a concrete input: spot = strike = 100, zero rate,
unit volatility and maturity. -/
theorem put_call_parity_witness :
    (0 : ℚ) < 1 ∧
    ∃ c p,
      black_sholes_price cP "Call" 100 100 0 1 1 = Except.ok c ∧
      black_sholes_price cP "Put" 100 100 0 1 1 = Except.ok p ∧
      c - p = 100 - 100 * cP.exp (-(0 * 1)) :=
  ⟨by norm_num,
    put_call_parity cP (fun x => by simp [cP]; ring) 100 100 0 1 1 (by norm_num) (by norm_num)⟩

/-- The spec recurrence of section 4.2 generates exactly the list built
by the source loop, for any offset into the draw stream. -/
theorem spec_path_eq_gpAux (P : Prims) (rf sigma dt : ℚ) :
    ∀ (n : Nat) (s : ℚ) (i0 : Nat) (Z : Nat → ℚ),
      spec_path P rf sigma dt s n (fun k => Z (i0 + k)) =
        s :: gpAux P rf sigma dt Z s i0 n := by
  intro n
  induction n with
  | zero => intro s i0 Z; rfl
  | succ m ih =>
      intro s i0 Z
      simp only [spec_path, gpAux, Nat.add_zero, List.cons.injEq, true_and]
      have h := ih (s * P.exp ((rf - 0.5 * sigma ^ 2) * dt + sigma * P.sqrt dt * Z i0)) (i0 + 1) Z
      have hfun : (fun i => Z (i0 + (i + 1))) = fun k => Z (i0 + 1 + k) := by
        funext i; congr 1; omega
      rw [hfun, h]

/-- The spec path over a draw stream equals the source path over the same
stream. -/
theorem spec_path_eq_geometric_path (P : Prims) (rf sigma dt : ℚ) (s : ℚ) (n : Nat)
    (Z : Nat → ℚ) :
    spec_path P rf sigma dt s n Z = geometric_path P rf s sigma dt n Z := by
  have h := spec_path_eq_gpAux P rf sigma dt n s 0 Z
  simpa [geometric_path] using h

/-- C2: for every parameter set, positive trial and step counts, and every
family of draw streams, the Monte Carlo pricer computes exactly the spec
computation of section 4.3: simulate `sims` paths over interval
`capt/steps`, take each terminal value, apply the call or put payoff,
average, and discount by `exp(-rf*capt)`. -/
theorem mc_call_prc_matches_spec (P : Prims) (kind : String) (spot strike rf sigma capt : ℚ)
    (steps sims : Nat) (Z : Nat → Nat → ℚ)
    (hk : kind = "Call" ∨ kind = "Put") (hsteps : 0 < steps) (hsims : 0 < sims) :
    mc_call_prc P kind spot strike rf sigma capt steps sims Z =
      Except.ok (spec_mc_price P kind spot strike rf sigma capt steps sims Z) := by
  have harg : (rf * -1) * capt = -(rf * capt) := by ring
  have hpath : ∀ j : Nat,
      spec_path P rf sigma (capt / (steps : ℚ)) spot steps (Z j) =
        geometric_path P rf spot sigma (capt / (steps : ℚ)) steps (Z j) :=
    fun j => spec_path_eq_geometric_path P rf sigma (capt / (steps : ℚ)) spot steps (Z j)
  rcases hk with h | h <;> subst h <;>
    simp only [mc_call_prc, mc_option_payoffs, mc_simulation, spec_mc_price, spec_payoff,
      mean, hpath, harg, List.map_map, Function.comp_def, String.reduceEq, reduceIte]

/-- Witness for C2 at a concrete input: one trial of one step with the
zero draw stream, a call at spot = strike = 1, zero rate and volatility
and unit maturity. -/
theorem mc_call_prc_matches_spec_witness :
    ("Call" = "Call" ∨ "Call" = "Put") ∧ 0 < 1 ∧ 0 < 1 ∧
    mc_call_prc cP "Call" 1 1 0 0 1 1 1 (fun _ _ => 0) =
      Except.ok (spec_mc_price cP "Call" 1 1 0 0 1 1 1 fun _ _ => 0) :=
  ⟨Or.inl rfl, by decide, by decide,
    mc_call_prc_matches_spec cP "Call" 1 1 0 0 1 1 1 (fun _ _ => 0)
      (Or.inl rfl) (by decide) (by decide)⟩

/-- The loop reads the draw stream only at the indices of its own steps:
streams that agree there produce the same list. -/
theorem gpAux_congr (P : Prims) (rf sigma t : ℚ) (Z Zb : Nat → ℚ) :
    ∀ (n : Nat) (s0 : ℚ) (i0 : Nat), (∀ k, i0 ≤ k → k < i0 + n → Z k = Zb k) →
      gpAux P rf sigma t Z s0 i0 n = gpAux P rf sigma t Zb s0 i0 n := by
  intro n
  induction n with
  | zero => intro s0 i0 _; rfl
  | succ m ih =>
      intro s0 i0 h
      have h0 : Z i0 = Zb i0 := h i0 (Nat.le_refl i0) (by omega)
      simp only [gpAux, h0, List.cons.injEq, true_and]
      exact ih _ (i0 + 1) fun k hk1 hk2 => h k (by omega) (by omega)

/-- C9: with the random source held fixed, the Monte Carlo pricer is a
deterministic function of its parameters: two invocations whose draw
streams agree on every draw the simulation consumes (trial indices below
`sims`, step indices below `steps`) return identical results. -/
theorem mc_call_prc_deterministic (P : Prims) (kind : String) (spot strike rf sigma capt : ℚ)
    (steps sims : Nat) (Z Zb : Nat → Nat → ℚ)
    (hZ : ∀ j < sims, ∀ i < steps, Z j i = Zb j i) :
    mc_call_prc P kind spot strike rf sigma capt steps sims Z =
      mc_call_prc P kind spot strike rf sigma capt steps sims Zb := by
  have hsim : mc_simulation P rf spot sigma capt steps sims Z =
      mc_simulation P rf spot sigma capt steps sims Zb := by
    unfold mc_simulation
    refine List.map_congr_left fun j hj => ?_
    have hj' : j < sims := List.mem_range.mp hj
    have hpath : geometric_path P rf spot sigma (capt / steps) steps (Z j) =
        geometric_path P rf spot sigma (capt / steps) steps (Zb j) := by
      unfold geometric_path
      rw [gpAux_congr P rf sigma (capt / steps) (Z j) (Zb j) steps spot 0
        fun k _ hk2 => hZ j hj' k (by omega)]
    rw [hpath]
  unfold mc_call_prc mc_option_payoffs
  rw [hsim]

/-- Witness for C9 at a concrete input: two streams that agree on the one
consumed draw (trial 0, step 0) but differ everywhere else give the same
price. -/
theorem mc_call_prc_deterministic_witness :
    mc_call_prc cP "Call" 1 1 0 0 1 1 1 (fun _ _ => 0) =
      mc_call_prc cP "Call" 1 1 0 0 1 1 1 fun j i => if j < 1 ∧ i < 1 then 0 else 7 :=
  mc_call_prc_deterministic cP "Call" 1 1 0 0 1 1 1 (fun _ _ => 0)
    (fun j i => if j < 1 ∧ i < 1 then 0 else 7)
    (by intro j hj i hi; simp [hj, hi])

/-- C10: for every option kind other than Call and Put, neither entry
point completes with a value: `mc_call_prc` hits `TypeError` when it
multiplies the fallback string by the discount factor, and
`black_sholes_price` hits `AttributeError` when it calls `.item()` on
the fallback string. -/
theorem invalid_kind_raises (P : Prims) (spot strike rf sigma capt : ℚ)
    (steps sims : Nat) (Z : Nat → Nat → ℚ) (kind : String)
    (h1 : kind ≠ "Call") (h2 : kind ≠ "Put") :
    mc_call_prc P kind spot strike rf sigma capt steps sims Z =
      Except.error PyErr.typeError ∧
    black_sholes_price P kind spot strike rf sigma capt =
      Except.error PyErr.attributeError := by
  constructor <;>
    simp only [mc_call_prc, mc_option_payoffs, black_sholes_price, black_sholes_val,
      if_neg h1, if_neg h2]

/-- Witness for C10 at a concrete input: the kind Straddle. -/
theorem invalid_kind_raises_witness :
    mc_call_prc cP "Straddle" 100 110 0 1 1 1 1 (fun _ _ => 0) =
      Except.error PyErr.typeError ∧
    black_sholes_price cP "Straddle" 100 110 0 1 1 =
      Except.error PyErr.attributeError :=
  invalid_kind_raises cP 100 110 0 1 1 1 1 (fun _ _ => 0) "Straddle"
    (by decide) (by decide)

/-- C5 fails on the code: at an unrecognized kind the payoff helper does
return the fallback string as its value, and the analytic pricer binds
the fallback string to `price`; no `UnsupportedOptionKind` error exists
anywhere in the source. -/
theorem string_fallback_returned :
    mc_option_payoffs cP "Straddle" 100 110 0 1 1 1 1 (fun _ _ => 0) =
      PyVal.str "Unrecognized option. Input Call or Put" ∧
    black_sholes_val cP "Straddle" 100 110 0 1 1 =
      PyVal.str "Option type not recognized. Please use Call or Put." := by
  constructor <;> rfl

/-- C7 fails on the code: the analytic pricer performs no degenerate
parameter validation at all; for volatility ≤ 0 or maturity ≤ 0 it still
returns a value for both recognized kinds instead of failing. -/
theorem black_sholes_no_degenerate_check (P : Prims) (spot strike rf sigma capt : ℚ)
    (hdeg : sigma ≤ 0 ∨ capt ≤ 0) :
    ∃ c p,
      black_sholes_price P "Call" spot strike rf sigma capt = Except.ok c ∧
      black_sholes_price P "Put" spot strike rf sigma capt = Except.ok p :=
  ⟨_, _, rfl, rfl⟩

/-- Witness for C7 at a concrete input: zero volatility. -/
theorem black_sholes_no_degenerate_check_witness :
    (0 : ℚ) ≤ 0 ∧
    ∃ c p,
      black_sholes_price cP "Call" 100 110 0 0 1 = Except.ok c ∧
      black_sholes_price cP "Put" 100 110 0 0 1 = Except.ok p :=
  ⟨le_refl 0, black_sholes_no_degenerate_check cP 100 110 0 0 1 (Or.inl (le_refl 0))⟩

/-- C8 fails on the code: a price series of length 1 (and even length 2)
makes the volatility computation silently produce `NaN` — pandas
`std(ddof=1)` over fewer than two returns — rather than raising any
`InsufficientData` error. -/
theorem stock_sigma_nan_on_short_series (P : Prims) (p q : ℚ) :
    stock_sigma P [p] = none ∧ stock_sigma P [p, q] = none := by
  constructor <;> simp [stock_sigma, sample_std, pct_change]

end OptionPricing
